import Mathlib

/-!
Verification of the Whisper front-end (TypeScript/React + Tauri) against its
natural-language specification.  The definitions below are a shallow
embedding of the repository's source files:

* `src/src/stores/useAppStore.ts` — the zustand store (`AppState`, the
  `set*` actions, `addHistory`);
* `src/src/App.tsx` — the engine-event callbacks wired up in
  `setupEventListeners` and the `handleMicClick` toggle;
* `src/src/lib/commands.ts` — the Tauri command wrappers and the built-in
  defaults;
* `src/lib/events.ts` (the unnamed events module) — `setupEventListeners`;
* `src/src/components/settings/SettingsPanel.tsx` — `formatBytes`, the
  `download-progress` listener, `updateField`, `updateProviderConfig`,
  `handleSave`;
* the hotkey capture handler `handleHotkeyKeyDown` and
  `src/src/components/HotkeyDisplay.tsx` — `formatKeyLabel`.

TypeScript string-literal unions (`ProviderId`, `InteractionMode`, the view
names) are strings at runtime and are modelled as `String`.  `null` and
`undefined` are modelled as `Option.none` (the spec declares absence and
null equivalent).  JavaScript `Record<string, T>` objects are modelled as
association lists with the insertion-order-preserving update that object
spread performs.
-/

set_option autoImplicit false

namespace Whisper

/-- `ProviderConfig` from `types.ts`: four nullable string fields. -/
structure ProviderConfig where
  api_key : Option String
  model : Option String
  language : Option String
  endpoint : Option String
deriving DecidableEq, Repr

/-- A `ProviderConfig` with every field absent.  This is what reading a
missing `provider_configs[providerId]` entry denotes in the source: the
object spread `{...undefined}` yields `{}`, whose fields read back as
`undefined` (≡ null per the spec). -/
def ProviderConfig.empty : ProviderConfig :=
  ⟨none, none, none, none⟩

/-- `AppSettings` from `types.ts` (the full current shape, including the
Const-me Whisper fields and `input_device`). -/
structure AppSettings where
  active_provider : String
  interaction_mode : String
  hotkey : String
  language : String
  provider_configs : List (String × ProviderConfig)
  local_whisper_model_path : Option String
  constme_whisper_dll_path : Option String
  constme_whisper_model_path : Option String
  constme_whisper_model_name : Option String
  auto_paste : Bool
  show_overlay : Bool
  input_device : Option String
deriving DecidableEq, Repr

/-- `TranscriptionEntry` from `types.ts`. -/
structure TranscriptionEntry where
  id : String
  text : String
  provider : String
  timestamp : String
  duration_ms : Nat
  language : Option String
deriving DecidableEq, Repr

/-- `ProviderInfo` from `types.ts`. -/
structure ProviderInfo where
  id : String
  name : String
  available : Bool
deriving DecidableEq, Repr

/-- `AudioDevice` from `types.ts`. -/
structure AudioDevice where
  name : String
  is_default : Bool
deriving DecidableEq, Repr

/-- `ConstmeModelStatus` from `types.ts`. -/
structure ConstmeModelStatus where
  name : String
  filename : String
  size_description : String
  available : Bool
  path : Option String
deriving DecidableEq, Repr

/-- `ConstmeWhisperStatus` from `types.ts`. -/
structure ConstmeWhisperStatus where
  dll_available : Bool
  dll_path : Option String
  models : List ConstmeModelStatus
deriving DecidableEq, Repr

/-- `DEFAULT_HOTKEY` from `commands.ts`. -/
def DEFAULT_HOTKEY : String := "CommandOrControl+Shift+Space"

/-- `defaultSettings` from `commands.ts`. -/
def defaultSettings : AppSettings where
  active_provider := "OpenAiWhisper"
  interaction_mode := "Toggle"
  hotkey := DEFAULT_HOTKEY
  language := "auto"
  provider_configs := []
  local_whisper_model_path := none
  constme_whisper_dll_path := none
  constme_whisper_model_path := none
  constme_whisper_model_name := none
  auto_paste := true
  show_overlay := true
  input_device := none

/-- `defaultProviders` from `commands.ts`. -/
def defaultProviders : List ProviderInfo :=
  [ ⟨"OpenAiWhisper", "OpenAI Whisper", true⟩,
    ⟨"GoogleCloud", "Google Cloud Speech-to-Text", true⟩,
    ⟨"LocalWhisper", "Local Whisper (whisper.cpp)", false⟩,
    ⟨"NativeStt", "Native OS Speech-to-Text", true⟩,
    ⟨"ConstmeWhisper", "Whisper GPU (DirectCompute)", false⟩ ]

/-! ### The zustand store (`useAppStore.ts`) -/

/-- The store state created by `create<AppState>` in `useAppStore.ts`,
with its initial values captured by `initialState` below. -/
structure AppState where
  isRecording : Bool
  isTranscribing : Bool
  settings : Option AppSettings
  history : List TranscriptionEntry
  providers : List ProviderInfo
  currentTranscription : String
  error : Option String
  activeView : String
deriving DecidableEq, Repr

/-- The initial store values from `useAppStore.ts`. -/
def initialState : AppState where
  isRecording := false
  isTranscribing := false
  settings := none
  history := []
  providers := []
  currentTranscription := ""
  error := none
  activeView := "home"

/-- `setRecording` store action. -/
def setRecording (val : Bool) (s : AppState) : AppState :=
  { s with isRecording := val }

/-- `setTranscribing` store action. -/
def setTranscribing (val : Bool) (s : AppState) : AppState :=
  { s with isTranscribing := val }

/-- `setSettings` store action. -/
def setSettings (v : AppSettings) (s : AppState) : AppState :=
  { s with settings := some v }

/-- `setHistory` store action: `set({ history: entries })` — a verbatim
overwrite, with no truncation in the source. -/
def setHistory (entries : List TranscriptionEntry) (s : AppState) : AppState :=
  { s with history := entries }

/-- `addHistory` store action:
`set(state => ({ history: [entry, ...state.history].slice(0, 100) }))`. -/
def addHistory (entry : TranscriptionEntry) (s : AppState) : AppState :=
  { s with history := (entry :: s.history).take 100 }

/-- `setProviders` store action. -/
def setProviders (providers : List ProviderInfo) (s : AppState) : AppState :=
  { s with providers := providers }

/-- `setCurrentTranscription` store action. -/
def setCurrentTranscription (text : String) (s : AppState) : AppState :=
  { s with currentTranscription := text }

/-- `setError` store action. -/
def setError (e : Option String) (s : AppState) : AppState :=
  { s with error := e }

/-- `setActiveView` store action. -/
def setActiveView (view : String) (s : AppState) : AppState :=
  { s with activeView := view }

/-! ### Engine events and the `App.tsx` callbacks -/

/-- The engine events routed by `setupEventListeners` in `events.ts`.
The `transcription-complete` payload is the `TranscriptionResult`
(`text`, `provider`, `duration_ms`, `language`); the `id` and `timestamp`
of the stored entry are generated at delivery time in `App.tsx`
(`crypto.randomUUID()`, `new Date().toISOString()`) and are therefore
modelled as data carried by the event. -/
inductive EngineEvent where
  | recordingStarted
  | recordingStopped
  | transcribing
  | transcriptionComplete (id text provider timestamp : String)
      (duration_ms : Nat) (language : Option String)
  | error (message : String)
deriving DecidableEq, Repr

/-- The callbacks registered in `App.tsx`'s `setupEventListeners` call,
applied to the store state.  Each branch performs exactly the store
actions of the corresponding callback, in source order. -/
def step (s : AppState) : EngineEvent → AppState
  | .recordingStarted => setError none (setRecording true s)
  | .recordingStopped => setRecording false s
  | .transcribing => setTranscribing true s
  | .transcriptionComplete id text provider timestamp duration_ms language =>
      addHistory ⟨id, text, provider, timestamp, duration_ms, language⟩
        (setCurrentTranscription text (setTranscribing false s))
  | .error message =>
      setError (some message) (setTranscribing false (setRecording false s))

/-- Deliver a list of engine events in order. -/
def run (s : AppState) (es : List EngineEvent) : AppState :=
  es.foldl step s

/-- The delivery discipline under which the spec's three-state invariant
holds: a `transcribing` event arrives only while not recording, and a
`recording-started` event only while not transcribing.  (The handlers
themselves do not enforce this; see the counterexample below.) -/
def okSeq (s : AppState) : List EngineEvent → Bool
  | [] => true
  | e :: es =>
      (match e with
       | .transcribing => !s.isRecording
       | .recordingStarted => !s.isTranscribing
       | _ => true) && okSeq (step s e) es

/-- `handleMicClick` in `App.tsx` dispatches one of these. -/
inductive DispatchedCommand where
  | noCommand
  | startRecordingCmd
  | stopRecordingCmd
deriving DecidableEq, Repr

/-- `handleMicClick` from `App.tsx`: guarded by `if (isTranscribing) return`,
it dispatches `stop_recording_and_transcribe` when recording, otherwise
`start_recording`; a rejected command is caught and only logged, and the
handler itself never mutates the store (transitions arrive via events). -/
def handleMicClick (s : AppState) : DispatchedCommand × AppState :=
  if s.isTranscribing then (.noCommand, s)
  else if s.isRecording then (.stopRecordingCmd, s)
  else (.startRecordingCmd, s)

/-! ### Tauri command wrappers (`commands.ts`) -/

/-- The engine behind the Tauri boundary, as observed through the commands
of `commands.ts`.  Each field is the outcome `invoke` would produce for the
corresponding command; a rejected promise is `Except.error`. -/
structure Engine where
  start_recording : Except String Unit
  stop_recording_and_transcribe : Except String String
  get_recording_state : Except String Bool
  get_settings : Except String AppSettings
  save_settings : AppSettings → Except String Unit
  get_history : Except String (List TranscriptionEntry)
  clear_history : Except String Unit
  get_providers : Except String (List ProviderInfo)
  list_input_devices : Except String (List AudioDevice)
  get_constme_whisper_status : Except String ConstmeWhisperStatus
  download_constme_dll : Except String String
  download_constme_model : String → Except String String

/-- `tauriInvoke` from `commands.ts`: when not running inside Tauri (no
engine attached, `engine = none`), it throws `"Not running in Tauri"`;
otherwise it forwards to the engine. -/
def tauriInvoke {α : Type} (engine : Option Engine)
    (call : Engine → Except String α) : Except String α :=
  match engine with
  | none => Except.error "Not running in Tauri"
  | some e => call e

/-- Models a `.catch(() => d)` suffix on a command promise: any rejection
resolves to the documented default `d`. -/
def catchWithDefault {α : Type} (x : Except String α) (d : α) : Except String α :=
  match x with
  | Except.error _ => Except.ok d
  | Except.ok v => Except.ok v

/-- `startRecording` from `commands.ts` (no `.catch`). -/
def startRecording (engine : Option Engine) : Except String Unit :=
  tauriInvoke engine Engine.start_recording

/-- `stopRecordingAndTranscribe` from `commands.ts` (no `.catch`). -/
def stopRecordingAndTranscribe (engine : Option Engine) : Except String String :=
  tauriInvoke engine Engine.stop_recording_and_transcribe

/-- `getRecordingState` from `commands.ts`: `.catch(() => false)`. -/
def getRecordingState (engine : Option Engine) : Except String Bool :=
  catchWithDefault (tauriInvoke engine Engine.get_recording_state) false

/-- `getSettings` from `commands.ts`: `.catch(() => defaultSettings)`. -/
def getSettings (engine : Option Engine) : Except String AppSettings :=
  catchWithDefault (tauriInvoke engine Engine.get_settings) defaultSettings

/-- `saveSettings` from `commands.ts` (no `.catch`). -/
def saveSettings (engine : Option Engine) (settings : AppSettings) :
    Except String Unit :=
  tauriInvoke engine (fun e => e.save_settings settings)

/-- `getHistory` from `commands.ts`: `.catch(() => [])`. -/
def getHistory (engine : Option Engine) : Except String (List TranscriptionEntry) :=
  catchWithDefault (tauriInvoke engine Engine.get_history) []

/-- `clearHistory` from `commands.ts` (no `.catch`). -/
def clearHistory (engine : Option Engine) : Except String Unit :=
  tauriInvoke engine Engine.clear_history

/-- `getProviders` from `commands.ts`: `.catch(() => defaultProviders)`. -/
def getProviders (engine : Option Engine) : Except String (List ProviderInfo) :=
  catchWithDefault (tauriInvoke engine Engine.get_providers) defaultProviders

/-- `listInputDevices` from `commands.ts`: `.catch(() => [])`. -/
def listInputDevices (engine : Option Engine) : Except String (List AudioDevice) :=
  catchWithDefault (tauriInvoke engine Engine.list_input_devices) []

/-- `getConstmeWhisperStatus` from `commands.ts` (no `.catch`). -/
def getConstmeWhisperStatus (engine : Option Engine) :
    Except String ConstmeWhisperStatus :=
  tauriInvoke engine Engine.get_constme_whisper_status

/-- `downloadConstmeDll` from `commands.ts` (no `.catch`). -/
def downloadConstmeDll (engine : Option Engine) : Except String String :=
  tauriInvoke engine Engine.download_constme_dll

/-- `downloadConstmeModel` from `commands.ts` (no `.catch`). -/
def downloadConstmeModel (engine : Option Engine) (modelFilename : String) :
    Except String String :=
  tauriInvoke engine (fun e => e.download_constme_model modelFilename)

/-- `setupEventListeners` from `events.ts`: with no engine attached it
returns `[]`; otherwise it registers exactly one listener per named event
and returns their unlisten handles, modelled here by the event names in
registration order. -/
def setupEventListeners (engine : Option Engine) : List String :=
  match engine with
  | none => []
  | some _ =>
      [ "recording-started", "recording-stopped", "transcribing",
        "transcription-complete", "error" ]

/-! ### `formatBytes` and the download-progress listener
(`SettingsPanel.tsx`) -/

/-- `(bytes / den).toFixed(1)` for a power-of-two denominator `den`.
The quotient `bytes / den` is exactly representable in binary floating
point (for the byte counts in range), and `toFixed` picks the integer `n`
with `n / 10` closest to the value, preferring the larger `n` on ties —
i.e. round-half-up, computed here exactly on naturals. -/
def toFixed1 (bytes den : Nat) : String :=
  let n := (bytes * 10 + den / 2) / den
  toString (n / 10) ++ "." ++ toString (n % 10)

/-- `(bytes / den).toFixed(2)`, same rounding as `toFixed1` with two
digits (zero-padded). -/
def toFixed2 (bytes den : Nat) : String :=
  let n := (bytes * 100 + den / 2) / den
  toString (n / 100) ++ "." ++
    (if n % 100 < 10 then "0" else "") ++ toString (n % 100)

/-- `formatBytes` from `SettingsPanel.tsx`. -/
def formatBytes (bytes : Nat) : String :=
  if bytes < 1024 then toString bytes ++ " B"
  else if bytes < 1024 * 1024 then toFixed1 bytes 1024 ++ " KB"
  else if bytes < 1024 * 1024 * 1024 then toFixed1 bytes (1024 * 1024) ++ " MB"
  else toFixed2 bytes (1024 * 1024 * 1024) ++ " GB"

/-- The `download-progress` event payload (`types.ts` / the listener in
`SettingsPanel.tsx`). -/
structure DownloadProgressEvent where
  item : String
  downloaded_bytes : Nat
  total_bytes : Option Nat
  done : Bool
deriving DecidableEq, Repr

/-- The `download-progress` listener in `ConstmeWhisperSettings`
(`SettingsPanel.tsx`), acting on the single `downloadProgress` string
state (initially `""`).  On `done` it sets the string to `""` (and
triggers a status refresh, outside this state); otherwise it overwrites
the string with this event's formatted line.  `total_bytes ? ... : "?"`
tests JavaScript truthiness, so both `null` and `0` render as `"?"`. -/
def onDownloadProgress (s : String) (e : DownloadProgressEvent) : String :=
  if e.done then ""
  else
    let downloaded := formatBytes e.downloaded_bytes
    let total :=
      match e.total_bytes with
      | some t => if t = 0 then "?" else formatBytes t
      | none => "?"
    e.item ++ ": " ++ downloaded ++ " / " ++ total

/-- Deliver a list of download-progress events in order. -/
def runDownloads (s : String) (es : List DownloadProgressEvent) : String :=
  es.foldl onDownloadProgress s

/-! ### The settings panel (`SettingsPanel.tsx`) -/

/-- The component state of `SettingsPanel` relevant to saving: the
canonical settings held in the store (`settings` / `setSettings`), the
draft (`localSettings`), and the `saving` / `saved` flags. -/
structure PanelState where
  canonical : Option AppSettings
  draft : Option AppSettings
  saving : Bool
  saved : Bool
deriving DecidableEq, Repr

/-- `updateField` from `SettingsPanel.tsx`:
`setLocalSettings(prev => prev ? {...prev, [key]: value} : prev)`.
The single-field replacement `{...prev, [key]: value}` is passed in as the
update function `u`. -/
def updateField (u : AppSettings → AppSettings) (ps : PanelState) : PanelState :=
  { ps with draft := ps.draft.map u }

/-- The four keys of `ProviderConfig` that `updateProviderConfig`'s dynamic
`field` string ranges over in the source. -/
inductive ConfigField where
  | api_key
  | model
  | language
  | endpoint
deriving DecidableEq, Repr

/-- Read one field of a `ProviderConfig`. -/
def ProviderConfig.getField (c : ProviderConfig) : ConfigField → Option String
  | .api_key => c.api_key
  | .model => c.model
  | .language => c.language
  | .endpoint => c.endpoint

/-- Replace one field of a `ProviderConfig`, as `{...old, [field]: v}`. -/
def ProviderConfig.setField (c : ProviderConfig) :
    ConfigField → Option String → ProviderConfig
  | .api_key, v => { c with api_key := v }
  | .model, v => { c with model := v }
  | .language, v => { c with language := v }
  | .endpoint, v => { c with endpoint := v }

/-- Update a `Record<string, ProviderConfig>` at one key, as the object
spread `{...configs, [providerId]: newCfg}` does: replace an existing
entry in place, or append a new one. -/
def upsertConfig (m : List (String × ProviderConfig)) (k : String)
    (v : ProviderConfig) : List (String × ProviderConfig) :=
  match m with
  | [] => [(k, v)]
  | (k₁, v₁) :: rest =>
      if k₁ = k then (k, v) :: rest else (k₁, v₁) :: upsertConfig rest k v

/-- The settings transformation inside `updateProviderConfig`
(`SettingsPanel.tsx`): merge a single field into
`provider_configs[providerId]`, creating the entry if absent
(`{...configs[providerId], [field]: value || null}` — spreading a missing
entry yields the all-absent config), with the falsy empty string
normalized to null. -/
def updateProviderConfigSettings (providerId : String) (field : ConfigField)
    (value : String) (prev : AppSettings) : AppSettings :=
  let oldCfg := (List.lookup providerId prev.provider_configs).getD ProviderConfig.empty
  let newCfg := oldCfg.setField field (if value = "" then none else some value)
  { prev with provider_configs := upsertConfig prev.provider_configs providerId newCfg }

/-- `updateProviderConfig` from `SettingsPanel.tsx`, acting on the draft:
`setLocalSettings(prev => { if (!prev) return prev; ... })`. -/
def updateProviderConfig (providerId : String) (field : ConfigField)
    (value : String) (draft : Option AppSettings) : Option AppSettings :=
  draft.map (updateProviderConfigSettings providerId field value)

/-- `handleSave` from `SettingsPanel.tsx`, given the outcome of the
`saveSettings` call.  `if (!localSettings) return` guards the whole body;
on success `setSettings(localSettings)` makes the draft canonical (the
`[settings]` effect then re-copies canonical into the draft, leaving its
value unchanged) and raises `saved` (auto-cleared 2000 ms later, outside
this state); on rejection the failure is only logged — neither canonical
nor draft is touched.  `saving` is raised at entry and lowered at exit,
so it ends `false` on every path through the body. -/
def handleSave (result : Except String Unit) (ps : PanelState) : PanelState :=
  match ps.draft with
  | none => ps
  | some d =>
      match result with
      | Except.ok _ =>
          { ps with canonical := some d, draft := some d, saved := true, saving := false }
      | Except.error _ => { ps with saving := false }

/-! ### The accelerator codec (`handleHotkeyKeyDown`, `HotkeyDisplay.tsx`) -/

/-- The fields of a keyboard event read by `handleHotkeyKeyDown`. -/
structure KeyEvent where
  key : String
  ctrlKey : Bool
  altKey : Bool
  shiftKey : Bool
  metaKey : Bool
deriving DecidableEq, Repr

/-- What `handleHotkeyKeyDown` does to the capture: Escape cancels,
Backspace/Delete resets the hotkey to `DEFAULT_HOTKEY`, a bare modifier is
ignored, and any other key stores an encoded accelerator string. -/
inductive HotkeyAction where
  | cancel
  | resetToDefault
  | ignore
  | setHotkey (value : String)
deriving DecidableEq, Repr

/-- `parts.join("+")` — JavaScript `Array.prototype.join` with `"+"`. -/
def joinPlus : List String → String
  | [] => ""
  | [x] => x
  | x :: xs => x ++ "+" ++ joinPlus xs

/-- JavaScript `key.toUpperCase()`, modelled character-wise (ASCII case
mapping, which covers every key the capture handler upper-cases). -/
def jsToUpper (s : String) : String :=
  String.mk (s.data.map Char.toUpper)

/-- `handleHotkeyKeyDown` from the settings panel: the accelerator
encoder.  Modifiers are tested in the fixed order ctrl-or-meta →
`"CommandOrControl"`, alt → `"Alt"`, shift → `"Shift"`; the terminal key
maps `" "` to `"Space"`, upper-cases single characters (`toUpperCase`,
modelled ASCII-wise by `String.toUpper`), passes named keys through; the
parts are joined with `"+"`. -/
def handleHotkeyKeyDown (e : KeyEvent) : HotkeyAction :=
  if e.key = "Escape" then .cancel
  else if e.key = "Backspace" ∨ e.key = "Delete" then .resetToDefault
  else if e.key = "Control" ∨ e.key = "Alt" ∨ e.key = "Shift" ∨
      e.key = "Meta" ∨ e.key = "Command" then .ignore
  else
    let parts : List String := []
    let parts := if e.ctrlKey || e.metaKey then parts ++ ["CommandOrControl"] else parts
    let parts := if e.altKey then parts ++ ["Alt"] else parts
    let parts := if e.shiftKey then parts ++ ["Shift"] else parts
    let key :=
      if e.key = " " then "Space"
      else if e.key.length = 1 then jsToUpper e.key
      else e.key
    .setHotkey (joinPlus (parts ++ [key]))

/-- `formatKeyLabel` from `HotkeyDisplay.tsx`: the platform display table.
`isMac` is `navigator.platform` containing `"MAC"`; unrecognized tokens
fall through verbatim. -/
def formatKeyLabel (isMac : Bool) (key : String) : String :=
  if key = "CommandOrControl" then (if isMac then "⌘" else "Ctrl")
  else if key = "Control" then (if isMac then "⌃" else "Ctrl")
  else if key = "Shift" then (if isMac then "⇧" else "Shift")
  else if key = "Alt" then (if isMac then "⌥" else "Alt")
  else if key = "Meta" ∨ key = "Command" then "⌘"
  else if key = "Space" then "Space"
  else key

/-- Helper for `splitPlus`: walk the characters, cutting at every `'+'`;
`acc` holds the current field reversed. -/
def splitPlusAux : List Char → List Char → List String
  | [], acc => [String.mk acc.reverse]
  | ch :: rest, acc =>
      if ch = '+' then String.mk acc.reverse :: splitPlusAux rest []
      else splitPlusAux rest (ch :: acc)

/-- JavaScript `hotkey.split("+")` for the one-character separator used by
`HotkeyDisplay`: fields between `'+'` occurrences, empty fields kept. -/
def splitPlus (s : String) : List String :=
  splitPlusAux s.toList []

/-- `HotkeyDisplay`'s decoding: `hotkey.split("+")` mapped through
`formatKeyLabel`. -/
def decodeHotkey (isMac : Bool) (hotkey : String) : List String :=
  (splitPlus hotkey).map (formatKeyLabel isMac)

/-! ### Sample data used by witnesses and counterexamples -/

/-- A synthetic history entry, for concrete evaluations. -/
def mkEntry (i : Nat) : TranscriptionEntry :=
  ⟨toString i, "text", "OpenAiWhisper", "2026-01-01T00:00:00Z", i, none⟩

/-- 101 synthetic history entries, appended in chronological order. -/
def sampleEntries : List TranscriptionEntry :=
  (List.range 101).map mkEntry

/-- Append a chronological list of entries through `addHistory`. -/
def appendAll (es : List TranscriptionEntry) (s : AppState) : AppState :=
  es.foldl (fun st e => addHistory e st) s

/-! ## Helper lemmas -/

/-- Pre-truncating the tail of an append does not change its truncation. -/
theorem take_append_take {α : Type} (a b : List α) (n : Nat) :
    (a ++ b.take n).take n = (a ++ b).take n := by
  rw [List.take_append_eq_append_take, List.take_append_eq_append_take,
    List.take_take]
  have hmin : min (n - a.length) n = n - a.length :=
    min_eq_left (Nat.sub_le n a.length)
  rw [hmin]

/-- Folding the capped prepend over a chronological list, starting from a
short accumulator, yields the truncated reverse. -/
theorem foldl_capped_prepend {α : Type} (es : List α) (acc : List α)
    (h : acc.length ≤ 100) :
    es.foldl (fun hist e => (e :: hist).take 100) acc =
      (es.reverse ++ acc).take 100 := by
  induction es generalizing acc with
  | nil =>
      simp only [List.foldl_nil, List.nil_append]
      exact (List.take_of_length_le h).symm
  | cons e es ih =>
      have hlen : ((e :: acc).take 100).length ≤ 100 := by
        simp [List.length_take]
      calc (e :: es).foldl (fun hist x => (x :: hist).take 100) acc
          = es.foldl (fun hist x => (x :: hist).take 100) ((e :: acc).take 100) := rfl
        _ = (es.reverse ++ (e :: acc).take 100).take 100 := ih _ hlen
        _ = (es.reverse ++ (e :: acc)).take 100 := take_append_take _ _ _
        _ = ((e :: es).reverse ++ acc).take 100 := by
              rw [List.reverse_cons, List.append_assoc]
              rfl

/-- `appendAll` only touches the `history` component, through the capped
prepend. -/
theorem appendAll_history (es : List TranscriptionEntry) (s : AppState) :
    (appendAll es s).history =
      es.foldl (fun hist e => (e :: hist).take 100) s.history := by
  induction es generalizing s with
  | nil => rfl
  | cons e es ih => exact ih (addHistory e s)

/-- `onDownloadProgress` never reads the previous tracked line. -/
theorem onDownloadProgress_state_blind (s t : String)
    (e : DownloadProgressEvent) :
    onDownloadProgress s e = onDownloadProgress t e := rfl

/-- Looking up the upserted key finds the new value. -/
theorem lookup_upsert_self (m : List (String × ProviderConfig)) (k : String)
    (v : ProviderConfig) :
    List.lookup k (upsertConfig m k v) = some v := by
  induction m with
  | nil => simp [upsertConfig, List.lookup]
  | cons p rest ih =>
      obtain ⟨k₁, v₁⟩ := p
      by_cases h : k₁ = k
      · simp [upsertConfig, h, List.lookup]
      · simp [upsertConfig, h, List.lookup,
          beq_eq_false_iff_ne.mpr (Ne.symm h), ih]

/-- Looking up any other key is unaffected by an upsert. -/
theorem lookup_upsert_other (m : List (String × ProviderConfig))
    (k q : String) (v : ProviderConfig) (h : q ≠ k) :
    List.lookup q (upsertConfig m k v) = List.lookup q m := by
  induction m with
  | nil => simp [upsertConfig, List.lookup, beq_eq_false_iff_ne.mpr h]
  | cons p rest ih =>
      obtain ⟨k₁, v₁⟩ := p
      by_cases hk : k₁ = k
      · subst hk
        simp [upsertConfig, List.lookup, beq_eq_false_iff_ne.mpr h]
      · by_cases hq : q = k₁
        · subst hq
          simp [upsertConfig, hk, List.lookup]
        · simp [upsertConfig, hk, List.lookup,
            beq_eq_false_iff_ne.mpr hq, ih]

/-- Reading back the provider-config field just written. -/
theorem getField_setField_same (c : ProviderConfig) (f : ConfigField)
    (v : Option String) : (c.setField f v).getField f = v := by
  cases f <;> rfl

/-- Writing one provider-config field leaves the others unchanged. -/
theorem getField_setField_other (c : ProviderConfig) (f f' : ConfigField)
    (v : Option String) (h : f' ≠ f) :
    (c.setField f v).getField f' = c.getField f' := by
  cases f <;> cases f' <;>
    simp_all [ProviderConfig.getField, ProviderConfig.setField]

/-! ## C1 — lifecycle flags -/

/-- C1 (counterexample): the claim says `(isRecording, isTranscribing) =
(true, true)` is unreachable from the initial state; but delivering
`recording-started` followed by `transcribing` (no `recording-stopped` in
between) leaves both flags true, because the `transcribing` callback only
sets `isTranscribing` and never clears `isRecording`. -/
theorem lifecycle_both_true_reachable :
    (run initialState [.recordingStarted, .transcribing]).isRecording = true ∧
    (run initialState [.recordingStarted, .transcribing]).isTranscribing = true :=
  ⟨rfl, rfl⟩

/-- C1 (amended): the three-state invariant holds for every event sequence
in which a `transcribing` event is only delivered while `isRecording` is
false and a `recording-started` event only while `isTranscribing` is false
(the discipline the engine's own protocol follows); the unrestricted claim
fails, since the handlers never clear the opposite flag on these two
events. -/
theorem lifecycle_guarded_invariant (es : List EngineEvent) (s : AppState)
    (hs : ¬(s.isRecording = true ∧ s.isTranscribing = true))
    (hok : okSeq s es = true) :
    ¬((run s es).isRecording = true ∧ (run s es).isTranscribing = true) := by
  induction es generalizing s with
  | nil => simpa [run] using hs
  | cons e es ih =>
      have hrun : run s (e :: es) = run (step s e) es := rfl
      rw [hrun]
      cases e with
      | recordingStarted =>
          simp only [okSeq, Bool.and_eq_true, Bool.not_eq_true'] at hok
          refine ih (step s .recordingStarted) ?_ hok.2
          simp [step, setRecording, setError, hok.1]
      | recordingStopped =>
          simp only [okSeq, Bool.and_eq_true] at hok
          refine ih (step s .recordingStopped) ?_ hok.2
          simp [step, setRecording]
      | transcribing =>
          simp only [okSeq, Bool.and_eq_true, Bool.not_eq_true'] at hok
          refine ih (step s .transcribing) ?_ hok.2
          simp [step, setTranscribing, hok.1]
      | transcriptionComplete id text provider timestamp duration_ms language =>
          simp only [okSeq, Bool.and_eq_true] at hok
          refine ih (step s (.transcriptionComplete id text provider timestamp
            duration_ms language)) ?_ hok.2
          simp [step, setTranscribing, setCurrentTranscription, addHistory]
      | error message =>
          simp only [okSeq, Bool.and_eq_true] at hok
          refine ih (step s (.error message)) ?_ hok.2
          simp [step, setRecording, setTranscribing, setError]

/-- A well-ordered session: record, stop, transcribe, complete. -/
def sampleSession : List EngineEvent :=
  [ .recordingStarted, .recordingStopped, .transcribing,
    .transcriptionComplete "id-1" "hello" "OpenAiWhisper"
      "2026-01-01T00:00:00Z" 1500 none ]

/-- Witness for C1 (amended) at a concrete well-ordered session. -/
theorem lifecycle_guarded_invariant_witness :
    ¬((run initialState sampleSession).isRecording = true ∧
      (run initialState sampleSession).isTranscribing = true) :=
  lifecycle_guarded_invariant sampleSession initialState (by decide) (by decide)

/-! ## C6 — `addHistory` capacity -/

/-- C6: `addHistory` prepends the entry newest-first and truncates to the
fixed capacity 100; appending 101 entries to the initially empty history
leaves exactly 100 entries, in newest-first order, evicting exactly the
chronologically oldest entry (the result is the reverse of the input with
its first — oldest — element dropped). -/
theorem addHistory_capacity (s : AppState) (e : TranscriptionEntry)
    (es : List TranscriptionEntry) (h : es.length = 101) :
    (addHistory e s).history = (e :: s.history).take 100 ∧
    (appendAll es initialState).history = (es.drop 1).reverse ∧
    (appendAll es initialState).history.length = 100 := by
  cases es with
  | nil => simp at h
  | cons e₀ rest =>
      have hrest : rest.length = 100 := by simpa using h
      have hinit : initialState.history = [] := rfl
      have hmain : (appendAll (e₀ :: rest) initialState).history =
          ((e₀ :: rest).drop 1).reverse := by
        rw [appendAll_history, foldl_capped_prepend _ _ (by decide),
          hinit, List.append_nil, List.reverse_cons,
          List.take_left' (by simpa using hrest)]
        rfl
      refine ⟨rfl, hmain, ?_⟩
      rw [hmain]
      simpa using hrest

/-- Witness for C6 at the concrete 101-entry sample. -/
theorem addHistory_capacity_witness :
    (appendAll sampleEntries initialState).history =
      (sampleEntries.drop 1).reverse ∧
    (appendAll sampleEntries initialState).history.length = 100 :=
  ⟨(addHistory_capacity initialState (mkEntry 0) sampleEntries
      (by simp [sampleEntries])).2.1,
   (addHistory_capacity initialState (mkEntry 0) sampleEntries
      (by simp [sampleEntries])).2.2⟩

/-! ## C7 — `setHistory` and the cap -/

/-- C7 (counterexample): the claim says the full-overwrite replace
operation caps the result at 100 entries; but `setHistory` stores the
input verbatim, and 101 entries remain 101. -/
theorem setHistory_no_cap_counterexample :
    ¬((setHistory sampleEntries initialState).history.length ≤ 100) := by
  simp [setHistory, sampleEntries]

/-- C7 (amended): `setHistory` is a verbatim full overwrite with no
defensive cap — the resulting history is exactly the input list, whatever
its length. -/
theorem setHistory_overwrites_verbatim (entries : List TranscriptionEntry)
    (s : AppState) :
    (setHistory entries s).history = entries ∧
    (setHistory entries s).history.length = entries.length :=
  ⟨rfl, rfl⟩

/-! ## C9 — mic toggle guarded while transcribing -/

/-- C9: while `isTranscribing` is true, `handleMicClick` dispatches no
command and leaves the state exactly as it was. -/
theorem micClick_noop_while_transcribing (s : AppState)
    (h : s.isTranscribing = true) :
    handleMicClick s = (DispatchedCommand.noCommand, s) := by
  simp [handleMicClick, h]

/-- Witness for C9 at a concrete transcribing state. -/
theorem micClick_noop_while_transcribing_witness :
    handleMicClick { initialState with isTranscribing := true } =
      (DispatchedCommand.noCommand, { initialState with isTranscribing := true }) :=
  micClick_noop_while_transcribing _ rfl

/-! ## C2 — download progress tracking -/

/-- C2 (counterexample): the claim says a `done=true` event for item A
removes only A's line and leaves item B's in-progress line unchanged; but
the listener keeps a single `downloadProgress` string shared by all items.
Concretely: a progress event for "B" puts B's line up, and a `done=true`
event for the distinct item "A" then clears it. -/
theorem download_done_clears_other_item :
    runDownloads "" [⟨"B", 10, some 100, false⟩] = "B: 10 B / 100 B" ∧
    runDownloads "" [⟨"B", 10, some 100, false⟩, ⟨"A", 0, none, true⟩] = "" ∧
    ("" : String) ≠ "B: 10 B / 100 B" := by
  refine ⟨rfl, rfl, ?_⟩
  decide

/-- C2 (amended): the tracker holds one in-progress line shared by all
items, so the state after any nonempty event sequence is determined by the
last event alone (global last-write-wins, not per-item independence): any
`done=true` event clears the line — including another item's line — and a
`done=false` event overwrites it with that event's
`item: downloaded / total` text, `total` rendered `"?"` when `total_bytes`
is null (or 0, both being falsy). -/
theorem download_single_line (s : String) (es : List DownloadProgressEvent)
    (e : DownloadProgressEvent) :
    runDownloads s (es ++ [e]) = onDownloadProgress "" e ∧
    (e.done = true → runDownloads s (es ++ [e]) = "") ∧
    (e.done = false → runDownloads s (es ++ [e]) =
      e.item ++ ": " ++ formatBytes e.downloaded_bytes ++ " / " ++
        (match e.total_bytes with
         | some t => if t = 0 then "?" else formatBytes t
         | none => "?")) := by
  have hlast : runDownloads s (es ++ [e]) = onDownloadProgress "" e := by
    rw [runDownloads, List.foldl_append]
    exact onDownloadProgress_state_blind (es.foldl onDownloadProgress s) "" e
  refine ⟨hlast, ?_, ?_⟩
  · intro hd
    rw [hlast]
    simp [onDownloadProgress, hd]
  · intro hd
    rw [hlast]
    simp [onDownloadProgress, hd]

/-- Witness for C2 (amended) at the same two-item scenario. -/
theorem download_single_line_witness :
    runDownloads "stale" ([⟨"B", 10, some 100, false⟩] ++ [⟨"A", 0, none, true⟩]) = "" :=
  (download_single_line "stale" [⟨"B", 10, some 100, false⟩]
    ⟨"A", 0, none, true⟩).2.1 rfl

/-! ## C3 — headless fallbacks -/

/-- C3 (counterexample): the claim says that with no engine attached
`start_recording`, `stop_recording_and_transcribe`, `save_settings`,
`clear_history` and the download commands do not raise; but these wrappers
have no `.catch`, so headless they all reject with
`"Not running in Tauri"` from `tauriInvoke`. -/
theorem headless_unwrapped_commands_raise :
    startRecording none = Except.error "Not running in Tauri" ∧
    stopRecordingAndTranscribe none = Except.error "Not running in Tauri" ∧
    saveSettings none defaultSettings = Except.error "Not running in Tauri" ∧
    clearHistory none = Except.error "Not running in Tauri" ∧
    getConstmeWhisperStatus none = Except.error "Not running in Tauri" ∧
    downloadConstmeDll none = Except.error "Not running in Tauri" ∧
    downloadConstmeModel none "ggml-medium.bin" =
      Except.error "Not running in Tauri" :=
  ⟨rfl, rfl, rfl, rfl, rfl, rfl, rfl⟩

/-- C3 (amended): headless, the fallback-wrapped query commands resolve to
their documented fallbacks (`get_recording_state` → false, `get_settings`
→ built-in defaults, `get_history` → [], `get_providers` → built-in
provider list, `list_input_devices` → []) and subscription setup returns
an empty handle set; but the commands without a `.catch` —
`start_recording`, `stop_recording_and_transcribe`, `save_settings`,
`clear_history`, `get_constme_whisper_status` and the download commands —
reject with `"Not running in Tauri"` instead of resolving. -/
theorem headless_fallbacks :
    getRecordingState none = Except.ok false ∧
    getSettings none = Except.ok defaultSettings ∧
    getHistory none = Except.ok [] ∧
    getProviders none = Except.ok defaultProviders ∧
    listInputDevices none = Except.ok [] ∧
    setupEventListeners none = [] ∧
    startRecording none = Except.error "Not running in Tauri" ∧
    stopRecordingAndTranscribe none = Except.error "Not running in Tauri" ∧
    saveSettings none defaultSettings = Except.error "Not running in Tauri" ∧
    clearHistory none = Except.error "Not running in Tauri" ∧
    getConstmeWhisperStatus none = Except.error "Not running in Tauri" ∧
    downloadConstmeDll none = Except.error "Not running in Tauri" ∧
    downloadConstmeModel none "ggml-medium.bin" =
      Except.error "Not running in Tauri" :=
  ⟨rfl, rfl, rfl, rfl, rfl, rfl, rfl, rfl, rfl, rfl, rfl, rfl, rfl⟩

/-! ## C4 — failed save preserves canonical and draft -/

/-- C4: applying `updateField` and then `handleSave` whose engine call
rejects leaves the canonical settings unchanged and the draft retained
with the edit applied; and canonical changes only when the save call
succeeds, in which case it becomes the draft. -/
theorem save_failure_preserves_settings (ps : PanelState)
    (u : AppSettings → AppSettings) (err : String) :
    (handleSave (Except.error err) (updateField u ps)).canonical = ps.canonical ∧
    (handleSave (Except.error err) (updateField u ps)).draft = ps.draft.map u ∧
    (∀ (result : Except String Unit) (d : AppSettings), ps.draft = some d →
      (handleSave result ps).canonical ≠ ps.canonical →
      result = Except.ok () ∧ (handleSave result ps).canonical = some d) := by
  refine ⟨?_, ?_, ?_⟩
  · cases hd : ps.draft <;> simp [handleSave, updateField, hd]
  · cases hd : ps.draft <;> simp [handleSave, updateField, hd]
  · intro result d hd hne
    cases result with
    | ok v => exact ⟨rfl, by simp [handleSave, hd]⟩
    | error e =>
        exact absurd (by simp [handleSave, hd]) hne

/-- A concrete panel state: nothing saved yet, draft holding the built-in
defaults. -/
def samplePanel : PanelState :=
  ⟨none, some defaultSettings, false, false⟩

/-- Witness for C4: edit the hotkey in the draft, fail the save — the
canonical settings stay `none` and the draft keeps the edit; a successful
save instead promotes the draft. -/
theorem save_failure_preserves_settings_witness :
    (handleSave (Except.error "engine unreachable")
      (updateField (fun s => { s with hotkey := "Alt+X" }) samplePanel)).canonical =
        samplePanel.canonical ∧
    (handleSave (Except.error "engine unreachable")
      (updateField (fun s => { s with hotkey := "Alt+X" }) samplePanel)).draft =
        samplePanel.draft.map (fun s => { s with hotkey := "Alt+X" }) ∧
    ((Except.ok () : Except String Unit) = Except.ok () ∧
      (handleSave (Except.ok ()) samplePanel).canonical = some defaultSettings) := by
  have h := save_failure_preserves_settings samplePanel
    (fun s => { s with hotkey := "Alt+X" }) "engine unreachable"
  exact ⟨h.1, h.2.1,
    h.2.2 (Except.ok ()) defaultSettings rfl (by decide)⟩

/-! ## C5 — accelerator round-trip for ctrl+shift+Space -/

/-- C5: encoding the chord {ctrl, shift, Space} yields exactly
`"CommandOrControl+Shift+Space"`; decoding it on the Mac platform yields
the glyphs ⌘, ⇧ and the word "Space", on the non-Mac platform the words
"Ctrl", "Shift", "Space"; an unrecognized token such as "F5" passes
through `formatKeyLabel` verbatim on both platforms. -/
theorem encode_decode_ctrl_shift_space :
    handleHotkeyKeyDown ⟨" ", true, false, true, false⟩ =
      HotkeyAction.setHotkey "CommandOrControl+Shift+Space" ∧
    decodeHotkey true "CommandOrControl+Shift+Space" = ["⌘", "⇧", "Space"] ∧
    decodeHotkey false "CommandOrControl+Shift+Space" =
      ["Ctrl", "Shift", "Space"] ∧
    formatKeyLabel true "F5" = "F5" ∧
    formatKeyLabel false "F5" = "F5" := by
  refine ⟨?_, ?_, ?_, ?_, ?_⟩ <;> decide

/-! ## C8 — provider-config merge -/

/-- C8: `updateProviderConfig` maps the merge over the optional draft;
the merge writes the one field into `provider_configs[providerId]`
(creating the entry if absent) with the empty string normalized to null,
and read-back of that field yields exactly that normalized value, while
every other config field of that provider, every other provider's config
entry, and every other settings field are unchanged. -/
theorem updateProviderConfig_merge (s : AppSettings) (p : String)
    (f : ConfigField) (v : String) :
    updateProviderConfig p f v (some s) =
      some (updateProviderConfigSettings p f v s) ∧
    ((List.lookup p (updateProviderConfigSettings p f v s).provider_configs).getD
        ProviderConfig.empty).getField f = (if v = "" then none else some v) ∧
    (∀ f', f' ≠ f →
      ((List.lookup p (updateProviderConfigSettings p f v s).provider_configs).getD
          ProviderConfig.empty).getField f' =
        ((List.lookup p s.provider_configs).getD ProviderConfig.empty).getField f') ∧
    (∀ q, q ≠ p →
      List.lookup q (updateProviderConfigSettings p f v s).provider_configs =
        List.lookup q s.provider_configs) ∧
    (updateProviderConfigSettings p f v s).active_provider = s.active_provider ∧
    (updateProviderConfigSettings p f v s).interaction_mode = s.interaction_mode ∧
    (updateProviderConfigSettings p f v s).hotkey = s.hotkey ∧
    (updateProviderConfigSettings p f v s).language = s.language ∧
    (updateProviderConfigSettings p f v s).local_whisper_model_path =
      s.local_whisper_model_path ∧
    (updateProviderConfigSettings p f v s).auto_paste = s.auto_paste ∧
    (updateProviderConfigSettings p f v s).show_overlay = s.show_overlay ∧
    (updateProviderConfigSettings p f v s).input_device = s.input_device := by
  refine ⟨rfl, ?_, ?_, ?_, rfl, rfl, rfl, rfl, rfl, rfl, rfl, rfl⟩
  · rw [show (updateProviderConfigSettings p f v s).provider_configs =
      upsertConfig s.provider_configs p
        (((List.lookup p s.provider_configs).getD ProviderConfig.empty).setField f
          (if v = "" then none else some v)) from rfl]
    rw [lookup_upsert_self]
    exact getField_setField_same _ _ _
  · intro f' hf
    rw [show (updateProviderConfigSettings p f v s).provider_configs =
      upsertConfig s.provider_configs p
        (((List.lookup p s.provider_configs).getD ProviderConfig.empty).setField f
          (if v = "" then none else some v)) from rfl]
    rw [lookup_upsert_self]
    exact getField_setField_other _ _ _ _ hf
  · intro q hq
    exact lookup_upsert_other _ _ _ _ hq

/-- Witness for C8 at the claim's own instance:
`updateProviderConfig("OpenAiWhisper","api_key","")` on the default
settings reads back `api_key = none`, leaves that provider's `model`
field and the `"GoogleCloud"` entry untouched. -/
theorem updateProviderConfig_merge_witness :
    ((List.lookup "OpenAiWhisper"
        (updateProviderConfigSettings "OpenAiWhisper" ConfigField.api_key ""
          defaultSettings).provider_configs).getD
      ProviderConfig.empty).getField ConfigField.api_key = none ∧
    ((List.lookup "OpenAiWhisper"
        (updateProviderConfigSettings "OpenAiWhisper" ConfigField.api_key ""
          defaultSettings).provider_configs).getD
      ProviderConfig.empty).getField ConfigField.model =
      ((List.lookup "OpenAiWhisper" defaultSettings.provider_configs).getD
        ProviderConfig.empty).getField ConfigField.model ∧
    List.lookup "GoogleCloud"
        (updateProviderConfigSettings "OpenAiWhisper" ConfigField.api_key ""
          defaultSettings).provider_configs =
      List.lookup "GoogleCloud" defaultSettings.provider_configs :=
  ⟨by simpa using
      (updateProviderConfig_merge defaultSettings "OpenAiWhisper"
        ConfigField.api_key "").2.1,
   (updateProviderConfig_merge defaultSettings "OpenAiWhisper"
      ConfigField.api_key "").2.2.1 ConfigField.model (by decide),
   (updateProviderConfig_merge defaultSettings "OpenAiWhisper"
      ConfigField.api_key "").2.2.2.1 "GoogleCloud" (by decide)⟩

/-! ## C10 — modifier-less single-character hotkeys -/

/-- C10: a keydown whose key is a single printable character other than
space, with no modifier held, stores exactly that character upper-cased —
a single token, with no modifier tokens and no "+" separator (the
length-1 key is necessarily none of Escape, Backspace, Delete or a bare
modifier name, all of which are longer). -/
theorem hotkey_single_char (k : String) (h₁ : k.length = 1) (h₂ : k ≠ " ") :
    handleHotkeyKeyDown ⟨k, false, false, false, false⟩ =
      HotkeyAction.setHotkey (jsToUpper k) ∧
    (jsToUpper k).length = 1 := by
  have hne : ∀ w : String, w.length ≠ 1 → k ≠ w := by
    intro w hw he
    rw [he] at h₁
    exact hw h₁
  have hE : k ≠ "Escape" := hne _ (by decide)
  have hB : k ≠ "Backspace" := hne _ (by decide)
  have hD : k ≠ "Delete" := hne _ (by decide)
  have hC : k ≠ "Control" := hne _ (by decide)
  have hA : k ≠ "Alt" := hne _ (by decide)
  have hS : k ≠ "Shift" := hne _ (by decide)
  have hM : k ≠ "Meta" := hne _ (by decide)
  have hCm : k ≠ "Command" := hne _ (by decide)
  constructor
  · simp [handleHotkeyKeyDown, hE, hB, hD, hC, hA, hS, hM, hCm, h₂, h₁, joinPlus]
  · rw [show (jsToUpper k).length = (k.data.map Char.toUpper).length from rfl,
      List.length_map]
    exact h₁

/-- Witness for C10: pressing `a` alone stores `"A"`. -/
theorem hotkey_single_char_witness :
    handleHotkeyKeyDown ⟨"a", false, false, false, false⟩ =
      HotkeyAction.setHotkey "A" ∧ ("A" : String).length = 1 := by
  have h := hotkey_single_char "a" (by decide) (by decide)
  have hup : jsToUpper "a" = "A" := by decide
  rw [hup] at h
  exact h

end Whisper
